import Mathlib

/-!
Verification of the layered container image storage core.

This file gives a shallow embedding, in Lean, of the parts of the repository
that the checked properties talk about:

* the continuity manifest merge operator (`vendor/.../continuity/merge.go`):
  resources, the aufs and overlay whiteout classifiers, the aufs path
  ordering, the whiteout context and `mergeResources`;
* the snapshot/continuity layer stores (`layer_store.go`):
  `createChainIDFromParent`, `registerWithDescriptor`, `releaseLayer`,
  `Release`, `CreateRWLayer`, `GetRWLayer`;
* the overlay2 driver's lower-list construction (`getLower`);
* the digest-verifying tar stream reader (`verifiedReadCloser.Read`).

Modelling conventions: Go strings are Lean `String`s (the repository only
manipulates ASCII paths and hex digests, so Go's byte indexing coincides with
character indexing and is modelled on `String.toList`); Go byte slices are
`List Nat`; SHA-256 digesting (`digest.FromBytes`, the tar digester) is kept
abstract as a function parameter, since the properties under check are
independent of the hash function itself; file-system and mount side effects
(always assumed successful by the claims under check) are dropped, keeping
the state that the store's maps and reference counts carry.
-/

/-! ### Byte-string helpers (Go `strings` / `path/filepath` primitives) -/

/-- Lexicographic strict order on character lists: Go's `s1 < s2` on strings. -/
def ltL : List Char → List Char → Bool
  | [], [] => false
  | [], _ :: _ => true
  | _ :: _, [] => false
  | a :: as, b :: bs => if a = b then ltL as bs else decide (a < b)

/-- Go `p1 < p2` on strings (byte lexicographic; ASCII here). -/
def strLt (p1 p2 : String) : Bool := ltL p1.toList p2.toList

/-- Prefix test on character lists. -/
def hasPre : List Char → List Char → Bool
  | [], _ => true
  | _ :: _, [] => false
  | a :: as, b :: bs => a = b && hasPre as bs

/-- Go `strings.HasPrefix s pre`. -/
def goHasPre (pre s : String) : Bool := hasPre pre.toList s.toList

/-- Go `s[n:]` (byte slicing, modelled on characters). -/
def goDrop (s : String) (n : Nat) : String := String.mk (s.toList.drop n)

/-- Go `len(s)` (bytes, modelled as characters). -/
def goLen (s : String) : Nat := s.toList.length

/-- Go `filepath.Split p`: directory part (up to and including the final
slash) and file-name part. -/
def splitPath (p : String) : String × String :=
  let r := p.toList.reverse
  let f := r.takeWhile (fun c => c ≠ '/')
  let d := r.dropWhile (fun c => c ≠ '/')
  (String.mk d.reverse, String.mk f.reverse)

/-! ### Continuity merge model (`merge.go`) -/

/-- A manifest resource, with the fields the merge operator and the whiteout
classifiers inspect (path, directory xattrs, device numbers). -/
inductive Resource where
  | regularFile (path : String)
  | directory (path : String) (xattrs : List (String × String))
  | symlink (path : String) (target : String)
  | device (path : String) (major minor : Nat)
  | namedPipe (path : String)
deriving DecidableEq, Repr

/-- `Resource.Path()`. -/
def Resource.path : Resource → String
  | .regularFile p => p
  | .directory p _ => p
  | .symlink p _ => p
  | .device p _ _ => p
  | .namedPipe p => p

/-- Association lookup for xattr maps. -/
def xattrGet : List (String × String) → String → Option String
  | [], _ => none
  | (k, v) :: t, key => if k = key then some v else xattrGet t key

/-- `overlayWhiteout`: directories carrying xattr `trusted.overlay.opaque`
with value `y` are opaque whiteouts of their own path; devices with
major 0, minor 0 are plain whiteouts of their path. -/
def overlayWhiteout (r : Resource) : String × Bool × Option Resource :=
  match r with
  | .directory p xattrs =>
    match xattrGet xattrs "trusted.overlay.opaque" with
    | some v => if goLen v = 1 && v.toList.headI = 'y' then (p, true, some r)
                else ("", false, none)
    | none => ("", false, none)
  | .device p major minor =>
    if major = 0 && minor = 0 then (p, false, none) else ("", false, none)
  | _ => ("", false, none)

def aufsWhiteoutPre : String := ".wh."

def aufsOpaqueDir : String := ".wh..wh..opq"

/-- `aufsWhiteout`: a regular file named `.wh..wh..opq` marks its directory
opaque; a regular file whose basename starts with `.wh.` whites out the
sibling named by stripping that marker. -/
def aufsWhiteout (r : Resource) : String × Bool × Option Resource :=
  match r with
  | .regularFile p =>
    let (dir, fname) := splitPath p
    if fname = aufsOpaqueDir then (dir, true, none)
    else if goHasPre aufsWhiteoutPre fname then (dir ++ goDrop fname 4, false, none)
    else ("", false, none)
  | _ => ("", false, none)

/-- `pathLess`: plain lexicographic order (overlay variant). -/
def pathLess (p1 p2 : String) : Bool := strLt p1 p2

/-- `aufsLess` on file names: `.wh.`-prefixed names sort before others. -/
def aufsLessL : List Char → List Char → Bool
  | '.' :: 'w' :: 'h' :: '.' :: r1, '.' :: 'w' :: 'h' :: '.' :: r2 => aufsLessL r1 r2
  | '.' :: 'w' :: 'h' :: '.' :: _, n2 => !n2.isEmpty
  | n1, '.' :: 'w' :: 'h' :: '.' :: _ => n1.isEmpty
  | n1, n2 => ltL n1 n2

def aufsLess (n1 n2 : String) : Bool := aufsLessL n1.toList n2.toList

/-- `aufsPathLess`: compare by directory, using `aufsLess` on the remainder
when one directory prefixes the other. -/
def aufsPathLess (p1 p2 : String) : Bool :=
  let (d1, _n1) := splitPath p1
  let (d2, _n2) := splitPath p2
  if d1 = d2 then aufsLess _n1 _n2
  else if goLen d1 < goLen d2 && goHasPre d1 d2 then
    aufsLess (goDrop p1 (goLen d1)) (goDrop p2 (goLen d1))
  else if goLen d1 > goLen d2 && goHasPre d2 d1 then
    aufsLess (goDrop p1 (goLen d2)) (goDrop p2 (goLen d2))
  else strLt p1 p2

/-- `asDir`: append a trailing slash unless already present. -/
def asDir (name : String) : String :=
  if name = "" || name.toList.getLast? ≠ some '/' then name ++ "/" else name

/-- `whiteoutContext`: recorded whiteout names, as explicit files and in
as-directory form.  NOTE: `addWhiteout` is translated exactly as written in
the source, where the directory list is rebuilt from the (updated) file list
plus the latest name's as-directory form. -/
structure WhiteoutContext where
  whiteoutFiles : List String
  whiteoutDirs : List String
deriving DecidableEq, Repr

/-- `whiteoutContext.addWhiteout` (faithful to the source, which appends
`asDir name` to `whiteoutFiles`, not to `whiteoutDirs`). -/
def WhiteoutContext.addWhiteout (wc : WhiteoutContext) (name : String) : WhiteoutContext :=
  let files := wc.whiteoutFiles ++ [name]
  { whiteoutFiles := files, whiteoutDirs := files ++ [asDir name] }

/-- `whiteoutContext.isWhitedOut`. -/
def WhiteoutContext.isWhitedOut (wc : WhiteoutContext) (name : String) : Bool :=
  wc.whiteoutFiles.any (fun f => f = name) ||
    wc.whiteoutDirs.any (fun f => goHasPre f name)

/-- `mergeResources`: merge-walk of two ordered resource sequences with a
whiteout classifier `wof` and ordering `less`; the last argument is the
running whiteout context (initially empty).  Every iteration of the Go loop
consumes at least one input element, so the loop is encoded structurally on
a fuel bound; `mergeTop` below supplies `r1.length + r2.length`, which every
reachable case keeps ahead of the remaining input (the fuel-exhausted arm is
never hit from `mergeTop`, and coincides with the trailing-base loop). -/
def mergeResources (wof : Resource → String × Bool × Option Resource)
    (less : String → String → Bool) :
    Nat → List Resource → List Resource → WhiteoutContext → List Resource
  | _, l1, [], wc =>
    -- trailing base entries, emitted unless whited out
    l1.filter (fun r => !wc.isWhitedOut r.path)
  | fuel + 1, [], r2 :: t2, wc =>
    -- trailing diff entries
    let (wo, opq, r) := wof r2
    if wo ≠ "" then
      match opq, r with
      | true, some rr => rr :: mergeResources wof less fuel [] t2 wc
      | _, _ => mergeResources wof less fuel [] t2 wc
    else r2 :: mergeResources wof less fuel [] t2 wc
  | fuel + 1, r1 :: t1, r2 :: t2, wc =>
    let p1 := (r1 : Resource).path
    let p2 := (r2 : Resource).path
    if less p1 p2 then
      if wc.isWhitedOut p1 then mergeResources wof less fuel t1 (r2 :: t2) wc
      else r1 :: mergeResources wof less fuel t1 (r2 :: t2) wc
    else
      -- on equality the base entry is replaced; then diff processing
      let l1 := if p1 = p2 then t1 else r1 :: t1
      let (wo, opq, r) := wof r2
      if wo ≠ "" then
        if opq then
          let wod := asDir wo
          let l1d := l1.dropWhile (fun rr => goHasPre wod rr.path)
          match r with
          | some rr => rr :: mergeResources wof less fuel l1d t2 wc
          | none => mergeResources wof less fuel l1d t2 wc
        else mergeResources wof less fuel l1 t2 (wc.addWhiteout wo)
      else r2 :: mergeResources wof less fuel l1 t2 wc
  | 0, l1, _ :: _, wc =>
    -- fuel exhausted: unreachable from mergeTop
    l1.filter (fun r => !wc.isWhitedOut r.path)

/-- `MergeOverlay` / `MergeAUFS` call `mergeResources` with an empty context. -/
def mergeTop (wof : Resource → String × Bool × Option Resource)
    (less : String → String → Bool) (r1 r2 : List Resource) : List Resource :=
  mergeResources wof less (r1.length + r2.length) r1 r2 ⟨[], []⟩

/-! ### Layer store model (`layer_store.go`, snapshot/continuity backends)

ChainIDs and DiffIDs are digest strings.  The two hash operations the store
performs — `digest.FromBytes` on a string (chain-ID derivation) and the
canonical digester over the tar bytes (diff-ID) — are abstract parameters
`H : String → String` and `sha : List Nat → String`. -/

def maxLayerDepth : Nat := 125

/-- `roLayer`: the fields the store's bookkeeping reads and writes.
`references` holds the opaque reference handles (`getReference`) by id. -/
structure RoLayerM where
  chainID : String
  diffID : String
  parent : Option String
  referenceCount : Nat
  references : List Nat
deriving DecidableEq, Repr

/-- `layer.Metadata` entries returned by deletion. -/
structure MetadataM where
  chainID : String
  diffID : String
deriving DecidableEq, Repr

/-- `mountedLayer`: the mount-registry record. -/
structure MountM where
  name : String
  parent : Option String
  initName : String
  references : List Nat
deriving DecidableEq, Repr

/-- The store state: the chain map `layerMap`, the mount registry `mounts`,
and a counter supplying fresh reference handles. -/
structure StoreState where
  layerMap : List (String × RoLayerM)
  mounts : List (String × MountM)
  nextRef : Nat
deriving DecidableEq, Repr

/-- Go map read `ls.layerMap[k]`. -/
def lookupLayer : List (String × RoLayerM) → String → Option RoLayerM
  | [], _ => none
  | (k, v) :: t, key => if k = key then some v else lookupLayer t key

/-- Point update of the chain map at a key. -/
def updateLayer : List (String × RoLayerM) → String → (RoLayerM → RoLayerM) →
    List (String × RoLayerM)
  | [], _, _ => []
  | (k, v) :: t, key, f =>
    if k = key then (k, f v) :: updateLayer t key f
    else (k, v) :: updateLayer t key f

/-- Go map delete `delete(ls.layerMap, k)`. -/
def removeLayer (m : List (String × RoLayerM)) (key : String) :
    List (String × RoLayerM) :=
  m.filter (fun e => e.1 ≠ key)

/-- Go map read `ls.mounts[k]`. -/
def lookupMount : List (String × MountM) → String → Option MountM
  | [], _ => none
  | (k, v) :: t, key => if k = key then some v else lookupMount t key

/-- Point update of the mount registry at a key. -/
def updateMount : List (String × MountM) → String → (MountM → MountM) →
    List (String × MountM)
  | [], _, _ => []
  | (k, v) :: t, key, f =>
    if k = key then (k, f v) :: updateMount t key f
    else (k, v) :: updateMount t key f

/-- `roLayer.depth()`: 1 for a parentless layer, else parent depth + 1;
pointer traversal is modelled by chain-map lookups under a fuel bound
(`layerMap.length` suffices for any acyclic store). -/
def depthGo (m : List (String × RoLayerM)) : Nat → RoLayerM → Nat
  | 0, _ => 0
  | fuel + 1, rl =>
    match rl.parent with
    | none => 1
    | some p =>
      match lookupLayer m p with
      | none => 0
      | some prl => depthGo m fuel prl + 1

/-- Result of `layerStore.releaseLayer`: the updated chain map and removed
metadata, or one of the source's panics; `stuck` marks a dangling parent
pointer or exhausted fuel, unreachable in well-formed stores. -/
inductive RelResult where
  | ok (m : List (String × RoLayerM)) (removed : List MetadataM)
  | panicked (msg : String)
  | stuck
deriving DecidableEq, Repr

/-- `layerStore.releaseLayer`: decrement the count; at zero, delete the
layer (after the child/reference panics) and cascade into the parent. -/
def releaseLayer (fuel : Nat) (m : List (String × RoLayerM)) (rl : RoLayerM)
    (depth : Nat) (removed : List MetadataM) : RelResult :=
  match fuel with
  | 0 => .stuck
  | fuel + 1 =>
    if rl.referenceCount = 0 then .panicked "layer not retained"
    else
      let rc := rl.referenceCount - 1
      let m1 := updateLayer m rl.chainID (fun l => { l with referenceCount := rc })
      if rc ≠ 0 then .ok m1 removed
      else if removed.length = 0 && depth > 0 then .panicked "cannot remove layer with child"
      else if rl.references.length > 0 then .panicked "cannot delete referenced layer"
      else
        let m2 := removeLayer m1 rl.chainID
        let removed1 := removed ++ [⟨rl.chainID, rl.diffID⟩]
        match rl.parent with
        | none => .ok m2 removed1
        | some p =>
          match lookupLayer m2 p with
          | none => .stuck
          | some prl => releaseLayer fuel m2 prl (depth + 1) removed1

/-- Result of `layerStore.Release`. -/
inductive ReleaseResult where
  | ok (removed : List MetadataM) (st : StoreState)
  | errLayerNotRetained
  | panicked (msg : String)
  | stuck
deriving DecidableEq, Repr

/-- `layerStore.Release`: a handle is the pair of the chain ID it reports
and its identity; unknown chain IDs yield an empty metadata list and no
error, a known chain ID with an unknown handle yields
`ErrLayerNotRetained`, otherwise the handle is dropped and the layer
released. -/
def Release (st : StoreState) (chainID : String) (ref : Nat) : ReleaseResult :=
  match lookupLayer st.layerMap chainID with
  | none => .ok [] st
  | some rl =>
    if rl.references.contains ref then
      let rl1 := { rl with references := rl.references.filter (fun x => x ≠ ref) }
      let m1 := updateLayer st.layerMap chainID
        (fun l => { l with references := l.references.filter (fun x => x ≠ ref) })
      match releaseLayer m1.length m1 rl1 0 [] with
      | .ok m2 removed => .ok removed { st with layerMap := m2 }
      | .panicked s => .panicked s
      | .stuck => .stuck
    else .errLayerNotRetained

/-- `createChainIDFromParent`: fold the diff digests onto the parent chain,
hashing `parent ++ " " ++ diff` at each step. -/
def createChainIDFromParent (H : String → String) : String → List String → String
  | parent, [] => parent
  | parent, d :: ds =>
    if parent = "" then createChainIDFromParent H d ds
    else createChainIDFromParent H (H (parent ++ " " ++ d)) ds

/-- Result of `registerWithDescriptor`: the returned layer's chain ID and
reference handle with the new state, or an error with the state as left
behind by the deferred parent-release. -/
inductive RegResult where
  | ok (chain : String) (ref : Nat) (st : StoreState)
  | errLayerDoesNotExist (st : StoreState)
  | errMaxDepthExceeded (st : StoreState)
  | panicked (msg : String)
  | stuck
deriving DecidableEq, Repr

/-- The tail of `registerWithDescriptor` after the parent was resolved and
its count incremented: compute the diff and chain IDs, detect a duplicate
chain ID (returning a retained reference to the existing layer and running
the error-cleanup release of the parent), or insert the new layer. -/
def registerInsert (sha : List Nat → String) (H : String → String)
    (st : StoreState) (T : List Nat) (parentKey : Option String)
    (parentChain : String) : RegResult :=
  let diffID := sha T
  let chain :=
    match parentKey with
    | none => diffID
    | some _ => createChainIDFromParent H parentChain [diffID]
  let ref := st.nextRef
  match lookupLayer st.layerMap chain with
  | some _ =>
    -- getWithoutLock bumps the count, getReference records the handle;
    -- the deferred cleanup then releases the parent reference
    let m2 := updateLayer st.layerMap chain
      (fun l => { l with referenceCount := l.referenceCount + 1,
                         references := l.references ++ [ref] })
    match parentKey with
    | none => .ok chain ref { st with layerMap := m2, nextRef := ref + 1 }
    | some pk =>
      match lookupLayer m2 pk with
      | none => .stuck
      | some prl =>
        match releaseLayer m2.length m2 prl 0 [] with
        | .ok m3 _ => .ok chain ref { st with layerMap := m3, nextRef := ref + 1 }
        | .panicked s => .panicked s
        | .stuck => .stuck
  | none =>
    let rl : RoLayerM :=
      { chainID := chain, diffID := diffID, parent := parentKey,
        referenceCount := 1, references := [ref] }
    .ok chain ref
      { st with layerMap := st.layerMap ++ [(chain, rl)], nextRef := ref + 1 }

/-- `layerStore.registerWithDescriptor` (also `Register`): resolve and
retain the parent, enforce `maxLayerDepth`, then apply the tar and insert
(the tar and metadata I/O, assumed successful, carries no model state). -/
def registerWithDescriptor (sha : List Nat → String) (H : String → String)
    (st : StoreState) (T : List Nat) (parent : String) : RegResult :=
  if parent = "" then registerInsert sha H st T none ""
  else
    match lookupLayer st.layerMap parent with
    | none => .errLayerDoesNotExist st
    | some p0 =>
      let m1 := updateLayer st.layerMap parent
        (fun l => { l with referenceCount := l.referenceCount + 1 })
      let p := { p0 with referenceCount := p0.referenceCount + 1 }
      if maxLayerDepth ≤ depthGo m1 m1.length p then
        match releaseLayer m1.length m1 p 0 [] with
        | .ok m2 _ => .errMaxDepthExceeded { st with layerMap := m2 }
        | .panicked s => .panicked s
        | .stuck => .stuck
      else registerInsert sha H { st with layerMap := m1 } T (some parent) p.chainID

/-! ### Read-write layer registry (`CreateRWLayer` / `GetRWLayer`) -/

/-- Result of the mount-registry operations. -/
inductive RWResult where
  | ok (ref : Nat) (st : StoreState)
  | errMountNameConflict
  | errMountDoesNotExist
  | errLayerDoesNotExist
deriving DecidableEq, Repr

/-- The snapshot store's `CreateRWLayer`: reject a registered name, retain
the parent chain, build the mount, store it in `ls.mounts` and hand out a
reference (snapshotter preparation, assumed successful, carries no model
state; `hasInit` tracks whether an init snapshot was committed). -/
def CreateRWLayer (st : StoreState) (name parent : String) (hasInit : Bool) :
    RWResult :=
  match lookupMount st.mounts name with
  | some _ => .errMountNameConflict
  | none =>
    let ref := st.nextRef
    let initName := if hasInit then "init-" ++ name else ""
    if parent = "" then
      let m : MountM := { name := name, parent := none, initName := initName,
                          references := [ref] }
      .ok ref { st with mounts := st.mounts ++ [(name, m)], nextRef := ref + 1 }
    else
      match lookupLayer st.layerMap parent with
      | none => .errLayerDoesNotExist
      | some _ =>
        let m1 := updateLayer st.layerMap parent
          (fun l => { l with referenceCount := l.referenceCount + 1 })
        let m : MountM := { name := name, parent := some parent,
                            initName := initName, references := [ref] }
        .ok ref { layerMap := m1, mounts := st.mounts ++ [(name, m)],
                  nextRef := ref + 1 }

/-- The continuity store's `CreateRWLayer`: performs the same conflict check
and parent retention, builds the mount and returns a reference — but never
stores the mount into `ls.mounts` (the `saveMount` step is absent in the
source). -/
def CreateRWLayerContinuity (st : StoreState) (name parent : String) :
    RWResult :=
  match lookupMount st.mounts name with
  | some _ => .errMountNameConflict
  | none =>
    let ref := st.nextRef
    if parent = "" then
      .ok ref { st with nextRef := ref + 1 }
    else
      match lookupLayer st.layerMap parent with
      | none => .errLayerDoesNotExist
      | some _ =>
        let m1 := updateLayer st.layerMap parent
          (fun l => { l with referenceCount := l.referenceCount + 1 })
        .ok ref { st with layerMap := m1, nextRef := ref + 1 }

/-- `layerStore.GetRWLayer`: look the name up in the mount registry and hand
out a new reference, or `ErrMountDoesNotExist`. -/
def GetRWLayer (st : StoreState) (name : String) : RWResult :=
  match lookupMount st.mounts name with
  | none => .errMountDoesNotExist
  | some _ =>
    .ok st.nextRef
      { st with
        mounts := updateMount st.mounts name
          (fun mm => { mm with references := mm.references ++ [st.nextRef] }),
        nextRef := st.nextRef + 1 }

/-! ### overlay2 lower-list construction (`getLower`) -/

def maxDepth : Nat := 128

def linkDir : String := "l"

/-- Go `path.Join` for the two-component joins the driver performs. -/
def goPathJoin (a b : String) : String := a ++ "/" ++ b

/-- `Driver.getLower`: the parent's link token prepended to the parent's own
lower list (when its `lower` file exists), rejected past `maxDepth`. -/
def getLower (parentLink : String) (parentLower : Option String) :
    Except String String :=
  let lowers := [goPathJoin linkDir parentLink]
  let lowers :=
    match parentLower with
    | some s => lowers ++ s.splitOn ":"
    | none => lowers
  if maxDepth < lowers.length then .error "max depth exceeded"
  else .ok (String.intercalate ":" lowers)

/-- The `lower` file content `Create` writes for a parented layer: the
`getLower` result, written only when non-empty. -/
def createLowerFile (parentLink : String) (parentLower : Option String) :
    Except String (Option String) :=
  match getLower parentLink parentLower with
  | .error e => .error e
  | .ok s => .ok (if s = "" then none else some s)

/-! ### Digest-verifying tar stream (`verifiedReadCloser.Read`) -/

/-- The error `verifiedReadCloser.Read` produces at EOF on digest
mismatch. -/
def verifyErrMsg (dgst : String) : String :=
  "could not verify layer data for: " ++ dgst ++
    ". This may be caused by layer metadata on disk being corrupted. " ++
    "Re-pulling or rebuilding this image may resolve the issue"

/-- Driving `verifiedReadCloser.Read` to completion: every returned chunk is
written into the verifier; the final read (EOF) yields the mismatch error
when the accumulated digest disagrees with the expected one, and a plain
EOF otherwise. -/
def verifiedRead (sha : List Nat → String) (dgst : String) :
    List (List Nat) → List Nat → Except String Unit
  | [], acc => if sha acc = dgst then .ok () else .error (verifyErrMsg dgst)
  | c :: cs, acc => verifiedRead sha dgst cs (acc ++ c)

/-- `roLayer.TarStream` wraps the reassembled tar chunks in a verifier
checking against the layer's DiffID. -/
def TarStreamRead (sha : List Nat → String) (rl : RoLayerM)
    (chunks : List (List Nat)) : Except String Unit :=
  verifiedRead sha rl.diffID chunks []

/-! ### Concrete fixtures used by witnesses and counterexamples -/

/-- A concrete stand-in for the tar digester (injective enough for the
tests below). -/
def shaW : List Nat → String := fun l => "D" ++ toString l.length

/-- A concrete stand-in for `digest.FromBytes`. -/
def HW : String → String := fun s => "H(" ++ s ++ ")"

/-- The empty store. -/
def st0 : StoreState := ⟨[], [], 0⟩

def chainName (i : Nat) : String := "c" ++ toString i

/-- One layer of a linear test chain: `c(i)` with parent `c(i-1)`. -/
def chainEntry (i : Nat) (rc : Nat) : String × RoLayerM :=
  (chainName i,
   { chainID := chainName i, diffID := "d" ++ toString i,
     parent := if i = 0 then none else some (chainName (i - 1)),
     referenceCount := rc, references := [] })

/-- The chain `c(n), …, c(0)`, every layer retained once by its child. -/
def mkChain : Nat → List (String × RoLayerM)
  | 0 => [chainEntry 0 1]
  | n + 1 => chainEntry (n + 1) 1 :: mkChain n

/-- A store holding a 125-deep chain whose head `c124` has reference count
zero (as `load` produces for a leaf layer with no mounts). -/
def deepStZero : StoreState := ⟨chainEntry 124 0 :: mkChain 123, [], 0⟩

/-- A store holding a 125-deep chain whose head `c124` is retained once. -/
def deepStOne : StoreState := ⟨chainEntry 124 1 :: mkChain 123, [], 0⟩

/-- A two-layer store used by witnesses: a base layer `"base"` and one
reference-holding child is not needed — the base is retained once. -/
def oneLayerSt : StoreState :=
  ⟨[("base", { chainID := "base", diffID := "bd", parent := none,
               referenceCount := 1, references := [5] })], [], 7⟩

/-- A store already holding the layer that `shaW [7]` ingests to (chain ID
`"D1"`), as left by a first registration. -/
def dupSt : StoreState :=
  ⟨[("D1", { chainID := "D1", diffID := "D1", parent := none,
             referenceCount := 1, references := [0] })], [], 1⟩

/-- The chain ID `registerWithDescriptor` derives for a tar `T` ingested on
`parent` against store `st` (statement-side abbreviation of the code's
computation). -/
def computedChainID (sha : List Nat → String) (H : String → String)
    (st : StoreState) (T : List Nat) (parent : String) : String :=
  if parent = "" then sha T
  else
    match lookupLayer st.layerMap parent with
    | some p0 => createChainIDFromParent H p0.chainID [sha T]
    | none => ""

/-! ### Association-map lemmas -/

theorem lookupLayer_nil (k : String) : lookupLayer [] k = none := rfl

theorem lookupLayer_updateLayer (m : List (String × RoLayerM)) (key j : String)
    (f : RoLayerM → RoLayerM) :
    lookupLayer (updateLayer m key f) j =
      if j = key then (lookupLayer m j).map f else lookupLayer m j := by
  induction m with
  | nil => simp [lookupLayer, updateLayer]
  | cons e t ih =>
    obtain ⟨a, b⟩ := e
    simp only [updateLayer]
    by_cases hak : a = key
    · subst hak
      by_cases haj : a = j
      · subst haj
        simp [lookupLayer, ih]
      · have hja : ¬j = a := fun h => haj h.symm
        simp [lookupLayer, haj, hja, ih]
    · by_cases haj : a = j
      · subst haj
        have hjk : ¬a = key := hak
        simp [lookupLayer, hak, hjk]
      · simp [lookupLayer, hak, haj, ih]

theorem keys_updateLayer (m : List (String × RoLayerM)) (key : String)
    (f : RoLayerM → RoLayerM) :
    (updateLayer m key f).map Prod.fst = m.map Prod.fst := by
  induction m with
  | nil => rfl
  | cons e t ih =>
    obtain ⟨a, b⟩ := e
    by_cases h : a = key <;> simp [updateLayer, h, ih]

theorem length_updateLayer (m : List (String × RoLayerM)) (key : String)
    (f : RoLayerM → RoLayerM) :
    (updateLayer m key f).length = m.length := by
  induction m with
  | nil => rfl
  | cons e t ih =>
    obtain ⟨a, b⟩ := e
    by_cases h : a = key <;> simp [updateLayer, h, ih]

theorem updateLayer_updateLayer (m : List (String × RoLayerM)) (key : String)
    (f g : RoLayerM → RoLayerM) :
    updateLayer (updateLayer m key f) key g =
      updateLayer m key (fun v => g (f v)) := by
  induction m with
  | nil => rfl
  | cons e t ih =>
    obtain ⟨a, b⟩ := e
    by_cases h : a = key <;> simp [updateLayer, h, ih]

theorem updateLayer_not_mem (m : List (String × RoLayerM)) (key : String)
    (f : RoLayerM → RoLayerM) (h : key ∉ m.map Prod.fst) :
    updateLayer m key f = m := by
  induction m with
  | nil => rfl
  | cons e t ih =>
    obtain ⟨a, b⟩ := e
    simp only [List.map_cons, List.mem_cons] at h
    push_neg at h
    simp [updateLayer, Ne.symm h.1, ih h.2]

theorem updateLayer_fix (m : List (String × RoLayerM)) (key : String)
    (f : RoLayerM → RoLayerM) (v : RoLayerM)
    (hnd : (m.map Prod.fst).Nodup) (hl : lookupLayer m key = some v)
    (hf : f v = v) : updateLayer m key f = m := by
  induction m with
  | nil => simp [lookupLayer] at hl
  | cons e t ih =>
    obtain ⟨a, b⟩ := e
    simp only [List.map_cons, List.nodup_cons] at hnd
    by_cases h : a = key
    · subst h
      simp only [lookupLayer, eq_self_iff_true, if_true, Option.some.injEq] at hl
      subst hl
      simp [updateLayer, hf, updateLayer_not_mem t a f hnd.1]
    · simp only [lookupLayer, if_neg h] at hl
      simp [updateLayer, h, ih hnd.2 hl]

theorem depthGo_updateLayer (m : List (String × RoLayerM)) (key : String)
    (f : RoLayerM → RoLayerM) (hf : ∀ v, (f v).parent = v.parent) :
    ∀ (fuel : Nat) (rl rl2 : RoLayerM), rl.parent = rl2.parent →
      depthGo (updateLayer m key f) fuel rl = depthGo m fuel rl2 := by
  intro fuel
  induction fuel with
  | zero => intro rl rl2 _; rfl
  | succ n ih =>
    intro rl rl2 hp
    simp only [depthGo, hp]
    cases hc : rl2.parent with
    | none => rfl
    | some p =>
      show (match lookupLayer (updateLayer m key f) p with
            | none => 0
            | some prl => depthGo (updateLayer m key f) n prl + 1) =
          (match lookupLayer m p with
            | none => 0
            | some prl => depthGo m n prl + 1)
      rw [lookupLayer_updateLayer]
      cases hl : lookupLayer m p with
      | none => simp
      | some v =>
        by_cases hpk : p = key <;> simp [hpk, hl]
        · exact ih (f v) v (hf v)
        · exact ih v v rfl

/-! ### Claim theorems -/

theorem mergeResources_nil_diff (wof : Resource → String × Bool × Option Resource)
    (less : String → String → Bool) (fuel : Nat) (l1 : List Resource)
    (wc : WhiteoutContext) :
    mergeResources wof less fuel l1 [] wc =
      l1.filter (fun r => !wc.isWhitedOut r.path) := by
  cases fuel <;> cases l1 <;> rfl

theorem isWhitedOut_empty (name : String) :
    WhiteoutContext.isWhitedOut ⟨[], []⟩ name = false := rfl

/-- **C4.** Merging any base with an empty diff returns the base unchanged,
for the overlay classifier/ordering and for the aufs classifier/ordering
(indeed for every classifier and ordering): with no diff entries the
whiteout context stays empty, so the trailing-base loop emits every base
resource. -/
theorem merge_empty_diff_identity (base : List Resource) :
    mergeTop overlayWhiteout pathLess base [] = base ∧
      mergeTop aufsWhiteout aufsPathLess base [] = base := by
  constructor <;>
    · rw [mergeTop, mergeResources_nil_diff]
      simp [isWhitedOut_empty]

/-- **C5 counterexample.**  With sorted inputs, base `[d!, d/x]` and a diff
holding only the overlay opaque marker for directory `d`, the merged result
still contains the base resource `d/x`, whose path has prefix `d/`: the
opaque skip stops at the non-matching entry `d!` (which sorts between `d`
and `d/` in byte order), so the subtree entry behind it survives. -/
theorem opaque_dir_leaks_subtree_entry :
    pathLess "d!" "d/x" = true ∧
    overlayWhiteout (.directory "d" [("trusted.overlay.opaque", "y")]) =
      ("d", true, some (.directory "d" [("trusted.overlay.opaque", "y")])) ∧
    mergeTop overlayWhiteout pathLess
        [.regularFile "d!", .regularFile "d/x"]
        [.directory "d" [("trusted.overlay.opaque", "y")]] =
      [.directory "d" [("trusted.overlay.opaque", "y")],
       .regularFile "d!", .regularFile "d/x"] ∧
    goHasPre "d/" "d/x" = true := by
  refine ⟨by decide, by decide, ?_, by decide⟩
  decide

/-- **C6 counterexample.**  `addWhiteout "a"` stores the bare name `"a"`
into `whiteoutDirs` (the source appends to `whiteoutFiles` when rebuilding
`whiteoutDirs`), so the sibling path `"ab"` — which neither equals `"a"`
nor lies under `"a/"` — is reported whited out, and a full aufs merge of
base `[ab]` with diff `[.wh.a]` wrongly suppresses `ab`; moreover after a
second whiteout the as-directory form of the first (`"a/"`) is no longer
tracked in `whiteoutDirs`. -/
theorem whiteout_context_bare_name_leak :
    (WhiteoutContext.addWhiteout ⟨[], []⟩ "a") = ⟨["a"], ["a", "a/"]⟩ ∧
    (WhiteoutContext.addWhiteout ⟨[], []⟩ "a").isWhitedOut "ab" = true ∧
    ("ab" ≠ "a" ∧ goHasPre "a/" "ab" = false) ∧
    ((WhiteoutContext.addWhiteout (WhiteoutContext.addWhiteout ⟨[], []⟩ "a") "b").whiteoutDirs
      = ["a", "b", "b/"]) ∧
    mergeTop aufsWhiteout aufsPathLess [.regularFile "ab"] [.regularFile ".wh.a"] = [] := by
  refine ⟨by decide, by decide, ⟨by decide, by decide⟩, by decide, ?_⟩
  decide

/-- **C7.**  In the snapshot store a successful `CreateRWLayer` registers
the name — `GetRWLayer` then succeeds and a second `CreateRWLayer` with the
same name fails with `ErrMountNameConflict` — but in the continuity store
the mount is never inserted into `ls.mounts`: after a successful
`CreateRWLayer("n", ...)` the registry is still empty, `GetRWLayer("n")`
returns `ErrMountDoesNotExist`, and a second `CreateRWLayer("n", ...)`
succeeds instead of failing. -/
theorem createRWLayer_registry_divergence :
    (CreateRWLayer st0 "n" "" false =
        .ok 0 ⟨[], [("n", { name := "n", parent := none, initName := "",
                            references := [0] })], 1⟩ ∧
      GetRWLayer ⟨[], [("n", { name := "n", parent := none, initName := "",
                               references := [0] })], 1⟩ "n" =
        .ok 1 ⟨[], [("n", { name := "n", parent := none, initName := "",
                            references := [0, 1] })], 2⟩ ∧
      CreateRWLayer ⟨[], [("n", { name := "n", parent := none, initName := "",
                                  references := [0] })], 1⟩ "n" "" false =
        .errMountNameConflict) ∧
    (CreateRWLayerContinuity st0 "n" "" = .ok 0 ⟨[], [], 1⟩ ∧
      GetRWLayer ⟨[], [], 1⟩ "n" = .errMountDoesNotExist ∧
      CreateRWLayerContinuity ⟨[], [], 1⟩ "n" "" = .ok 1 ⟨[], [], 2⟩) := by
  exact ⟨⟨by decide, by decide, by decide⟩, ⟨by decide, by decide, by decide⟩⟩

theorem verifiedRead_eq (sha : List Nat → String) (dgst : String) :
    ∀ (cs : List (List Nat)) (acc : List Nat),
      verifiedRead sha dgst cs acc =
        if sha (acc ++ cs.flatten) = dgst then .ok () else .error (verifyErrMsg dgst) := by
  intro cs
  induction cs with
  | nil => intro acc; simp [verifiedRead]
  | cons c t ih =>
    intro acc
    simp [verifiedRead, ih (acc ++ c), List.append_assoc]

theorem createLowerFile_ok (link : String) (pl : Option String) (s : String)
    (hs : createLowerFile link pl = .ok (some s)) : getLower link pl = .ok s := by
  unfold createLowerFile at hs
  cases hg : getLower link pl with
  | error e => rw [hg] at hs; exact absurd hs (by simp)
  | ok u =>
    rw [hg] at hs
    simp only at hs
    split at hs
    · exact absurd hs (by simp)
    · simp only [Except.ok.injEq, Option.some.injEq] at hs
      rw [hs]

/-- **C8.** `getLower` never returns a lower list of more than
`maxDepth = 128` colon-separated entries, and errors with
`max depth exceeded` whenever prepending the parent's link to the parent's
lower list would exceed 128 entries; hence the `lower` file `Create`
writes holds at most 128 entries. -/
theorem getLower_max_depth (link : String) (parentLower : Option String) :
    (∀ s, getLower link parentLower = .ok s →
      ∃ entries, s = String.intercalate ":" entries ∧ entries.length ≤ maxDepth) ∧
    (maxDepth < 1 + (match parentLower with
        | some s => (s.splitOn ":").length
        | none => 0) →
      getLower link parentLower = .error "max depth exceeded") ∧
    (∀ s, createLowerFile link parentLower = .ok (some s) →
      ∃ entries, s = String.intercalate ":" entries ∧ entries.length ≤ maxDepth) := by
  cases parentLower with
  | none =>
    have h1 : ∀ s, getLower link none = .ok s →
        ∃ entries, s = String.intercalate ":" entries ∧ entries.length ≤ maxDepth := by
      intro s hs
      norm_num [getLower, maxDepth] at hs
      exact ⟨[goPathJoin linkDir link], hs.symm, by norm_num [maxDepth]⟩
    refine ⟨h1, ?_, fun s hs => h1 s (createLowerFile_ok link none s hs)⟩
    intro hb
    have hb2 : maxDepth < 1 + 0 := hb
    simp [maxDepth] at hb2
  | some pl =>
    have h1 : ∀ s, getLower link (some pl) = .ok s →
        ∃ entries, s = String.intercalate ":" entries ∧ entries.length ≤ maxDepth := by
      intro s hs
      simp only [getLower] at hs
      split at hs
      · exact absurd hs (by simp)
      · rename_i hn
        simp only [Except.ok.injEq] at hs
        exact ⟨[goPathJoin linkDir link] ++ pl.splitOn ":", hs.symm, Nat.le_of_not_lt hn⟩
    refine ⟨h1, ?_, fun s hs => h1 s (createLowerFile_ok link (some pl) s hs)⟩
    intro hb
    have hb2 : maxDepth < 1 + (pl.splitOn ":").length := hb
    simp only [getLower]
    split
    · rfl
    · rename_i hn
      exfalso
      have hn2 : ¬maxDepth < ([goPathJoin linkDir link] ++ pl.splitOn ":").length := hn
      simp only [List.length_append, List.length_singleton] at hn2
      omega

/-- **C8 witness.** A parentless lower list of one entry is accepted and
within the bound. -/
theorem getLower_max_depth_witness :
    ∃ entries, "l/abc" = String.intercalate ":" entries ∧ entries.length ≤ maxDepth :=
  (getLower_max_depth "abc" none).1 "l/abc" rfl

/-- **C9.** Reading a layer's `TarStream` to completion checks the digest of
the reassembled bytes against the layer's DiffID: agreement ends the stream
with a plain EOF, disagreement makes the final read return the error that
names the expected DiffID and advises re-pulling or rebuilding the image
(`verifyErrMsg`). -/
theorem tarStream_verifies_diffID (sha : List Nat → String) (rl : RoLayerM)
    (chunks : List (List Nat)) :
    (sha chunks.flatten = rl.diffID → TarStreamRead sha rl chunks = .ok ()) ∧
    (sha chunks.flatten ≠ rl.diffID →
      TarStreamRead sha rl chunks = .error (verifyErrMsg rl.diffID)) := by
  constructor <;> intro h <;>
    simp [TarStreamRead, verifiedRead_eq, h]

/-- **C9 witness.** A two-chunk stream whose digest matches the DiffID ends
in EOF; tampering with the DiffID produces the named error. -/
theorem tarStream_verifies_diffID_witness :
    TarStreamRead shaW ⟨"c", "D3", none, 1, []⟩ [[1], [2, 3]] = .ok () ∧
      TarStreamRead shaW ⟨"c", "D9", none, 1, []⟩ [[1], [2, 3]] =
        .error (verifyErrMsg "D9") :=
  ⟨(tarStream_verifies_diffID shaW ⟨"c", "D3", none, 1, []⟩ [[1], [2, 3]]).1 (by decide),
   (tarStream_verifies_diffID shaW ⟨"c", "D9", none, 1, []⟩ [[1], [2, 3]]).2 (by decide)⟩

/-- **C10.** `Release` on a handle whose ChainID is absent from the chain
map returns an empty metadata list and no error; `ErrLayerNotRetained` is
returned exactly when the ChainID is present but the handle is not in that
layer's reference set. -/
theorem release_unknown_chain_or_handle (st : StoreState) (chain : String) (ref : Nat) :
    (lookupLayer st.layerMap chain = none → Release st chain ref = .ok [] st) ∧
    (∀ rl, lookupLayer st.layerMap chain = some rl →
      rl.references.contains ref = false →
      Release st chain ref = .errLayerNotRetained) ∧
    (∀ rl, lookupLayer st.layerMap chain = some rl →
      rl.references.contains ref = true →
      Release st chain ref ≠ .errLayerNotRetained) := by
  refine ⟨?_, ?_, ?_⟩
  · intro h
    simp [Release, h]
  · intro rl h hc
    simp only [Release, h, hc]
    simp
  · intro rl h hc
    simp only [Release, h, hc, if_true]
    split <;> simp

/-- **C10 witness.** On a store holding only layer `"base"` (whose handle
set is `[5]`): releasing an unknown chain is a no-op success, releasing
`"base"` with the foreign handle 9 yields `ErrLayerNotRetained`, and with
the recorded handle 5 it does not. -/
theorem release_unknown_chain_or_handle_witness :
    Release oneLayerSt "nope" 3 = .ok [] oneLayerSt ∧
      Release oneLayerSt "base" 9 = .errLayerNotRetained ∧
      Release oneLayerSt "base" 5 ≠ .errLayerNotRetained :=
  ⟨(release_unknown_chain_or_handle oneLayerSt "nope" 3).1 (by decide),
   (release_unknown_chain_or_handle oneLayerSt "base" 9).2.1
     { chainID := "base", diffID := "bd", parent := none,
       referenceCount := 1, references := [5] } (by decide) (by decide),
   (release_unknown_chain_or_handle oneLayerSt "base" 5).2.2
     { chainID := "base", diffID := "bd", parent := none,
       referenceCount := 1, references := [5] } (by decide) (by decide)⟩

theorem registerInsert_ok_chain (sha : List Nat → String) (H : String → String)
    (st : StoreState) (T : List Nat) (pk : Option String) (pc : String)
    (c : String) (r : Nat) (st2 : StoreState)
    (h : registerInsert sha H st T pk pc = .ok c r st2) :
    c = (match pk with
        | none => sha T
        | some _ => createChainIDFromParent H pc [sha T]) ∧ r = st.nextRef := by
  cases pk with
  | none =>
    simp only [registerInsert] at h
    split at h
    · cases h
      exact ⟨rfl, rfl⟩
    · cases h
      exact ⟨rfl, rfl⟩
  | some pkv =>
    simp only [registerInsert] at h
    split at h
    · split at h
      · simp at h
      · split at h
        · cases h
          exact ⟨rfl, rfl⟩
        · simp at h
        · simp at h
    · cases h
      exact ⟨rfl, rfl⟩

theorem register_ok_chain (sha : List Nat → String) (H : String → String)
    (st : StoreState) (T : List Nat) (parent : String)
    (c : String) (r : Nat) (st2 : StoreState)
    (h : registerWithDescriptor sha H st T parent = .ok c r st2) :
    c = computedChainID sha H st T parent := by
  simp only [registerWithDescriptor] at h
  split at h
  · rename_i hp
    have hc := (registerInsert_ok_chain sha H st T none "" c r st2 h).1
    simp [computedChainID, hp, hc]
  · rename_i hp
    split at h
    · simp at h
    · rename_i p0 hl
      split at h
      · split at h <;> simp at h
      · have hc := (registerInsert_ok_chain sha H _ T (some parent) p0.chainID c r st2 h).1
        simp [computedChainID, hp, hl, hc]

/-- **C1.** `createChainIDFromParent` hashes `parent ++ " " ++ diff` (and
degenerates to the diff itself on an empty parent); consequently a layer
returned by a successful `Register`/`registerWithDescriptor` carries
`ChainID = sha(T)` when the parent is empty, and
`ChainID = H(parentChainID ++ " " ++ sha(T))` otherwise. -/
theorem register_chain_identity :
    (∀ (H : String → String) (p d : String),
      createChainIDFromParent H p [d] = if p = "" then d else H (p ++ " " ++ d)) ∧
    (∀ (sha : List Nat → String) (H : String → String) (st : StoreState)
        (T : List Nat) (parent c : String) (r : Nat) (st2 : StoreState),
      registerWithDescriptor sha H st T parent = .ok c r st2 →
        (parent = "" → c = sha T) ∧
        (∀ p0, parent ≠ "" → lookupLayer st.layerMap parent = some p0 →
          p0.chainID ≠ "" → c = H (p0.chainID ++ " " ++ sha T))) := by
  constructor
  · intro H p d
    by_cases hp : p = "" <;> simp [createChainIDFromParent, hp]
  · intro sha H st T parent c r st2 h
    have hc := register_ok_chain sha H st T parent c r st2 h
    constructor
    · intro hp
      simpa [computedChainID, hp] using hc
    · intro p0 hp hl hcid
      rw [hc]
      simp [computedChainID, hp, hl, createChainIDFromParent, hcid]

/-- **C1 witness.** Registering a tar into the empty store returns a layer
whose chain ID is its diff digest; registering a second tar onto it hashes
`parent ++ " " ++ diff`. -/
theorem register_chain_identity_witness :
    "D1" = shaW [7] ∧ "H(D1 D2)" = HW ("D1" ++ " " ++ shaW [7, 8]) :=
  ⟨(register_chain_identity.2 shaW HW st0 [7] "" "D1" 0
      ⟨[("D1", { chainID := "D1", diffID := "D1", parent := none,
                 referenceCount := 1, references := [0] })], [], 1⟩
      (by decide)).1 rfl,
   (register_chain_identity.2 shaW HW
      ⟨[("D1", { chainID := "D1", diffID := "D1", parent := none,
                 referenceCount := 1, references := [0] })], [], 1⟩
      [7, 8] "D1" "H(D1 D2)" 1
      ⟨[("D1", { chainID := "D1", diffID := "D1", parent := none,
                 referenceCount := 2, references := [0] }),
        ("H(D1 D2)", { chainID := "H(D1 D2)", diffID := "D2",
                       parent := some "D1", referenceCount := 1,
                       references := [1] })], [], 2⟩
      (by decide)).2
     { chainID := "D1", diffID := "D1", parent := none,
       referenceCount := 1, references := [0] }
     (by decide) (by decide) (by decide)⟩

/-- **C2 (amended).** `Register` against a parent whose depth is already
`maxLayerDepth = 125` fails with `ErrMaxDepthExceeded`; *provided the
parent's prior reference count is at least one*, the deferred release
restores the count and the store is returned exactly unchanged.  (When the
prior count is zero the failing call garbage-collects the parent chain —
see the counterexample.) -/
theorem register_depth_cap (sha : List Nat → String) (H : String → String)
    (st : StoreState) (T : List Nat) (parent : String) (p0 : RoLayerM)
    (hnd : (st.layerMap.map Prod.fst).Nodup)
    (hl : lookupLayer st.layerMap parent = some p0)
    (hid : p0.chainID = parent)
    (hne : parent ≠ "")
    (hrc : 1 ≤ p0.referenceCount)
    (hd : maxLayerDepth ≤ depthGo st.layerMap st.layerMap.length p0) :
    registerWithDescriptor sha H st T parent = .errMaxDepthExceeded st := by
  have hdepth :
      depthGo
        (updateLayer st.layerMap parent
          (fun l => { l with referenceCount := l.referenceCount + 1 }))
        (updateLayer st.layerMap parent
          (fun l => { l with referenceCount := l.referenceCount + 1 })).length
        { p0 with referenceCount := p0.referenceCount + 1 } =
      depthGo st.layerMap st.layerMap.length p0 := by
    rw [length_updateLayer]
    exact depthGo_updateLayer st.layerMap parent
      (fun l => { l with referenceCount := l.referenceCount + 1 }) (fun v => rfl)
      st.layerMap.length { p0 with referenceCount := p0.referenceCount + 1 } p0 rfl
  obtain ⟨k, hk⟩ : ∃ k, st.layerMap.length = k + 1 := by
    cases hm : st.layerMap with
    | nil => rw [hm] at hl; simp [lookupLayer] at hl
    | cons a t => exact ⟨t.length, by simp [hm]⟩
  simp only [registerWithDescriptor, if_neg hne, hl]
  rw [if_pos (by rw [hdepth]; exact hd)]
  rw [length_updateLayer, hk]
  simp only [releaseLayer]
  rw [if_neg (by simp)]
  simp only [Nat.add_sub_cancel]
  rw [if_pos (by simp; omega)]
  have hm2 : updateLayer
      (updateLayer st.layerMap parent
        (fun l => { l with referenceCount := l.referenceCount + 1 }))
      ({ p0 with referenceCount := p0.referenceCount + 1 } : RoLayerM).chainID
      (fun l => { l with referenceCount := p0.referenceCount }) = st.layerMap := by
    show updateLayer
        (updateLayer st.layerMap parent
          (fun l => { l with referenceCount := l.referenceCount + 1 }))
        p0.chainID (fun l => { l with referenceCount := p0.referenceCount }) =
      st.layerMap
    rw [hid, updateLayer_updateLayer]
    exact updateLayer_fix st.layerMap parent _ p0 hnd hl rfl
  rw [hm2]

set_option maxRecDepth 100000 in
/-- **C2 witness.** On a 125-deep chain whose head is retained once,
registering a new layer against the head fails with `ErrMaxDepthExceeded`
and leaves the store exactly as it was. -/
theorem register_depth_cap_witness :
    registerWithDescriptor shaW HW deepStOne [] "c124" = .errMaxDepthExceeded deepStOne :=
  register_depth_cap shaW HW deepStOne [] "c124" (chainEntry 124 1).2
    (by decide) (by decide) (by decide) (by decide) (by decide) (by decide)

set_option maxRecDepth 100000 in
/-- **C2 counterexample.** The claim's "state is unchanged" is not exact:
on a 125-deep chain whose head has reference count zero (as `load` leaves a
leaf layer with no mounts), the failing `Register` still returns
`ErrMaxDepthExceeded`, but the deferred release drops the head to zero and
cascades — the whole 125-layer chain is deleted from the chain map. -/
theorem register_depth_cap_counterexample :
    registerWithDescriptor shaW HW deepStZero [] "c124" =
        .errMaxDepthExceeded ⟨[], [], 0⟩ ∧
      deepStZero.layerMap ≠ [] := by
  constructor
  · decide
  · decide

theorem lookup_refs_updateLayer (m : List (String × RoLayerM)) (key j : String)
    (f : RoLayerM → RoLayerM) (hf : ∀ v, (f v).references = v.references) :
    (lookupLayer (updateLayer m key f) j).map RoLayerM.references =
      (lookupLayer m j).map RoLayerM.references := by
  rw [lookupLayer_updateLayer]
  by_cases h : j = key
  · cases lookupLayer m j <;> simp [h, hf]
  · simp [h]

/-- **C3.** When the chain ID computed by `registerWithDescriptor` already
exists in the chain map at insert time, the call returns a fresh retained
reference to the *existing* layer and no error: the result is `ok` carrying
a new reference handle that is recorded on the existing layer's reference
set, and the freshly built layer is not inserted (the key set of the chain
map is unchanged; the internal "layer already exists" error only drives the
deferred cleanup, releasing the parent reference taken at the start of the
call). -/
theorem register_duplicate_returns_existing (sha : List Nat → String)
    (H : String → String) (st : StoreState) (T : List Nat) (parent : String)
    (ex : RoLayerM)
    (hp : parent ≠ "" → ∃ p0, lookupLayer st.layerMap parent = some p0 ∧
      1 ≤ p0.referenceCount ∧
      depthGo st.layerMap st.layerMap.length p0 < maxLayerDepth)
    (hdup : lookupLayer st.layerMap (computedChainID sha H st T parent) = some ex) :
    ∃ st2, registerWithDescriptor sha H st T parent =
        .ok (computedChainID sha H st T parent) st.nextRef st2 ∧
      st2.layerMap.map Prod.fst = st.layerMap.map Prod.fst ∧
      ∃ rl2, lookupLayer st2.layerMap (computedChainID sha H st T parent) = some rl2 ∧
        st.nextRef ∈ rl2.references := by
  by_cases hpe : parent = ""
  · subst hpe
    have hch : computedChainID sha H st T "" = sha T := by simp [computedChainID]
    rw [hch] at hdup
    rw [hch]
    simp only [registerWithDescriptor, if_pos rfl, registerInsert, hdup]
    refine ⟨_, rfl, by simp [keys_updateLayer], ?_⟩
    have hval : lookupLayer
        (updateLayer st.layerMap (sha T)
          (fun l => { l with referenceCount := l.referenceCount + 1,
                             references := l.references ++ [st.nextRef] }))
        (sha T) =
        some { ex with referenceCount := ex.referenceCount + 1,
                       references := ex.references ++ [st.nextRef] } := by
      rw [lookupLayer_updateLayer, if_pos rfl, hdup]
      rfl
    exact ⟨_, hval, by simp⟩
  · obtain ⟨p0, hl, hrc, hdep⟩ := hp hpe
    have hch : computedChainID sha H st T parent =
        createChainIDFromParent H p0.chainID [sha T] := by
      simp [computedChainID, hpe, hl]
    rw [hch] at hdup ⊢
    have hnil : st.layerMap ≠ [] := by
      intro he; rw [he] at hl; simp [lookupLayer] at hl
    obtain ⟨k, hk⟩ : ∃ k, st.layerMap.length = k + 1 := by
      cases hm : st.layerMap with
      | nil => exact absurd hm hnil
      | cons a t => exact ⟨t.length, by simp [hm]⟩
    have hdepth :
        depthGo
          (updateLayer st.layerMap parent
            (fun l => { l with referenceCount := l.referenceCount + 1 }))
          (updateLayer st.layerMap parent
            (fun l => { l with referenceCount := l.referenceCount + 1 })).length
          { p0 with referenceCount := p0.referenceCount + 1 } =
        depthGo st.layerMap st.layerMap.length p0 := by
      rw [length_updateLayer]
      exact depthGo_updateLayer st.layerMap parent
        (fun l => { l with referenceCount := l.referenceCount + 1 }) (fun v => rfl)
        st.layerMap.length { p0 with referenceCount := p0.referenceCount + 1 } p0 rfl
    simp only [registerWithDescriptor, if_neg hpe, hl]
    rw [if_neg (by rw [hdepth]; omega)]
    simp only [registerInsert]
    by_cases hcp : createChainIDFromParent H p0.chainID [sha T] = parent
    · -- the duplicate chain ID happens to be the parent itself
      have hexp : ex = p0 := by
        rw [hcp] at hdup
        rw [hdup] at hl
        exact Option.some.inj hl
      have hl1 : lookupLayer
          (updateLayer st.layerMap parent
            (fun l => { l with referenceCount := l.referenceCount + 1 }))
          (createChainIDFromParent H p0.chainID [sha T]) =
          some { p0 with referenceCount := p0.referenceCount + 1 } := by
        rw [lookupLayer_updateLayer, if_pos hcp, hcp, hl]
        rfl
      rw [hl1]
      have hl1p : lookupLayer
          (updateLayer st.layerMap parent
            (fun l => { l with referenceCount := l.referenceCount + 1 }))
          parent =
          some { p0 with referenceCount := p0.referenceCount + 1 } := by
        rw [lookupLayer_updateLayer, if_pos rfl, hl]
        rfl
      have hl2 : lookupLayer
          (updateLayer
            (updateLayer st.layerMap parent
              (fun l => { l with referenceCount := l.referenceCount + 1 }))
            (createChainIDFromParent H p0.chainID [sha T])
            (fun l => { l with referenceCount := l.referenceCount + 1,
                               references := l.references ++ [st.nextRef] }))
          parent =
          some { p0 with referenceCount := p0.referenceCount + 2,
                         references := p0.references ++ [st.nextRef] } := by
        rw [lookupLayer_updateLayer, if_pos hcp.symm, hl1p]
        rfl
      rw [hl2]
      rw [show (updateLayer
            (updateLayer st.layerMap parent
              (fun l => { l with referenceCount := l.referenceCount + 1 }))
            (createChainIDFromParent H p0.chainID [sha T])
            (fun l => { l with referenceCount := l.referenceCount + 1,
                               references := l.references ++ [st.nextRef] })).length = k + 1 by
        rw [length_updateLayer, length_updateLayer, hk]]
      simp only [releaseLayer]
      rw [if_neg (by simp)]
      rw [if_pos (by simp)]
      refine ⟨_, rfl, ?_, ?_⟩
      · simp [keys_updateLayer]
      · have hrefs := lookup_refs_updateLayer
          (updateLayer
            (updateLayer st.layerMap parent
              (fun l => { l with referenceCount := l.referenceCount + 1 }))
            (createChainIDFromParent H p0.chainID [sha T])
            (fun l => { l with referenceCount := l.referenceCount + 1,
                               references := l.references ++ [st.nextRef] }))
          ({ p0 with referenceCount := p0.referenceCount + 2,
                     references := p0.references ++ [st.nextRef] } : RoLayerM).chainID
          (createChainIDFromParent H p0.chainID [sha T])
          (fun l => { l with referenceCount :=
              ({ p0 with referenceCount := p0.referenceCount + 2,
                         references := p0.references ++ [st.nextRef] } : RoLayerM).referenceCount - 1 })
          (fun v => rfl)
        have hmid : lookupLayer
            (updateLayer
              (updateLayer st.layerMap parent
                (fun l => { l with referenceCount := l.referenceCount + 1 }))
              (createChainIDFromParent H p0.chainID [sha T])
              (fun l => { l with referenceCount := l.referenceCount + 1,
                                 references := l.references ++ [st.nextRef] }))
            (createChainIDFromParent H p0.chainID [sha T]) =
            some { p0 with referenceCount := p0.referenceCount + 2,
                           references := p0.references ++ [st.nextRef] } := by
          rw [lookupLayer_updateLayer, if_pos rfl, hl1]
          rfl
        rw [hmid] at hrefs
        simp only [Option.map] at hrefs
        cases hfin : lookupLayer
            (updateLayer
              (updateLayer
                (updateLayer st.layerMap parent
                  (fun l => { l with referenceCount := l.referenceCount + 1 }))
                (createChainIDFromParent H p0.chainID [sha T])
                (fun l => { l with referenceCount := l.referenceCount + 1,
                                   references := l.references ++ [st.nextRef] }))
              ({ p0 with referenceCount := p0.referenceCount + 2,
                         references := p0.references ++ [st.nextRef] } : RoLayerM).chainID
              (fun l => { l with referenceCount :=
                  ({ p0 with referenceCount := p0.referenceCount + 2,
                             references := p0.references ++ [st.nextRef] } : RoLayerM).referenceCount - 1 }))
            (createChainIDFromParent H p0.chainID [sha T]) with
        | none => rw [hfin] at hrefs; simp at hrefs
        | some rl2 =>
          rw [hfin] at hrefs
          refine ⟨rl2, rfl, ?_⟩
          have : rl2.references = ex.references ++ [st.nextRef] := by
            rw [hexp]
            simpa using hrefs
          rw [this]
          simp
    · -- the duplicate chain ID is a different key than the parent
      have hl1 : lookupLayer
          (updateLayer st.layerMap parent
            (fun l => { l with referenceCount := l.referenceCount + 1 }))
          (createChainIDFromParent H p0.chainID [sha T]) = some ex := by
        rw [lookupLayer_updateLayer, if_neg hcp, hdup]
      rw [hl1]
      have hl2 : lookupLayer
          (updateLayer
            (updateLayer st.layerMap parent
              (fun l => { l with referenceCount := l.referenceCount + 1 }))
            (createChainIDFromParent H p0.chainID [sha T])
            (fun l => { l with referenceCount := l.referenceCount + 1,
                               references := l.references ++ [st.nextRef] }))
          parent =
          some { p0 with referenceCount := p0.referenceCount + 1 } := by
        rw [lookupLayer_updateLayer, if_neg (fun h => hcp h.symm),
          lookupLayer_updateLayer, if_pos rfl, hl]
        rfl
      rw [hl2]
      rw [show (updateLayer
            (updateLayer st.layerMap parent
              (fun l => { l with referenceCount := l.referenceCount + 1 }))
            (createChainIDFromParent H p0.chainID [sha T])
            (fun l => { l with referenceCount := l.referenceCount + 1,
                               references := l.references ++ [st.nextRef] })).length = k + 1 by
        rw [length_updateLayer, length_updateLayer, hk]]
      simp only [releaseLayer]
      rw [if_neg (by simp)]
      rw [if_pos (by simp; omega)]
      refine ⟨_, rfl, ?_, ?_⟩
      · simp [keys_updateLayer]
      · have hrefs := lookup_refs_updateLayer
          (updateLayer
            (updateLayer st.layerMap parent
              (fun l => { l with referenceCount := l.referenceCount + 1 }))
            (createChainIDFromParent H p0.chainID [sha T])
            (fun l => { l with referenceCount := l.referenceCount + 1,
                               references := l.references ++ [st.nextRef] }))
          ({ p0 with referenceCount := p0.referenceCount + 1 } : RoLayerM).chainID
          (createChainIDFromParent H p0.chainID [sha T])
          (fun l => { l with referenceCount :=
              ({ p0 with referenceCount := p0.referenceCount + 1 } : RoLayerM).referenceCount - 1 })
          (fun v => rfl)
        have hmid : lookupLayer
            (updateLayer
              (updateLayer st.layerMap parent
                (fun l => { l with referenceCount := l.referenceCount + 1 }))
              (createChainIDFromParent H p0.chainID [sha T])
              (fun l => { l with referenceCount := l.referenceCount + 1,
                                 references := l.references ++ [st.nextRef] }))
            (createChainIDFromParent H p0.chainID [sha T]) =
            some { ex with referenceCount := ex.referenceCount + 1,
                           references := ex.references ++ [st.nextRef] } := by
          rw [lookupLayer_updateLayer, if_pos rfl, hl1]
          rfl
        rw [hmid] at hrefs
        simp only [Option.map] at hrefs
        cases hfin : lookupLayer
            (updateLayer
              (updateLayer
                (updateLayer st.layerMap parent
                  (fun l => { l with referenceCount := l.referenceCount + 1 }))
                (createChainIDFromParent H p0.chainID [sha T])
                (fun l => { l with referenceCount := l.referenceCount + 1,
                                   references := l.references ++ [st.nextRef] }))
              ({ p0 with referenceCount := p0.referenceCount + 1 } : RoLayerM).chainID
              (fun l => { l with referenceCount :=
                  ({ p0 with referenceCount := p0.referenceCount + 1 } : RoLayerM).referenceCount - 1 }))
            (createChainIDFromParent H p0.chainID [sha T]) with
        | none => rw [hfin] at hrefs; simp at hrefs
        | some rl2 =>
          rw [hfin] at hrefs
          refine ⟨rl2, rfl, ?_⟩
          have : rl2.references = ex.references ++ [st.nextRef] := by
            simpa using hrefs
          rw [this]
          simp

/-- **C3 witness.** Re-registering the same tar into `dupSt` hits the
existing chain ID `"D1"`: the call succeeds with a fresh reference recorded
on the existing layer and inserts nothing new. -/
theorem register_duplicate_returns_existing_witness :
    ∃ st2, registerWithDescriptor shaW HW dupSt [7] "" =
        .ok (computedChainID shaW HW dupSt [7] "") dupSt.nextRef st2 ∧
      st2.layerMap.map Prod.fst = dupSt.layerMap.map Prod.fst ∧
      ∃ rl2, lookupLayer st2.layerMap (computedChainID shaW HW dupSt [7] "") = some rl2 ∧
        dupSt.nextRef ∈ rl2.references :=
  register_duplicate_returns_existing shaW HW dupSt [7] ""
    { chainID := "D1", diffID := "D1", parent := none,
      referenceCount := 1, references := [0] }
    (fun h => absurd rfl h) (by decide)
